import Mathlib

/-!
Verification development for the targetcli-fb daemon/client IPC core
(`targetclid.py` and `targetcli_shell.py`).

Text is modelled as a list of Unicode code points (`List Nat`) on the wire
codec side, and as a list of characters (`List Char`) on the command-batching
side.  Byte streams are lists of naturals, each < 256.
-/

namespace Targetcli

/-! ## Framing codec

The daemon's response encoder (`TargetCLI.client_thread`, targetclid.py
lines 170-175) and the client's response decoder (`call_daemon`,
targetcli_shell.py lines 163-175).  Python's `str.encode()` / `bytes.decode()`
are UTF-8; we model them over code points. -/

/-- A Unicode scalar value: below the surrogate range, or between the
surrogate range and 0x110000.  Python's UTF-8 codec refuses surrogates. -/
def validCP (c : Nat) : Bool := decide (c < 0xD800) || (decide (0xE000 ≤ c) && decide (c < 0x110000))

/-- All code points of a text are valid scalar values. -/
def validText (s : List Nat) : Bool := s.all validCP

/-- UTF-8 encoding of one code point (`str.encode()` per character). -/
def utf8EncodeChar (c : Nat) : List Nat :=
  if c < 0x80 then [c]
  else if c < 0x800 then [0xC0 + c / 0x40, 0x80 + c % 0x40]
  else if c < 0x10000 then
    [0xE0 + c / 0x1000, 0x80 + (c / 0x40) % 0x40, 0x80 + c % 0x40]
  else
    [0xF0 + c / 0x40000, 0x80 + (c / 0x1000) % 0x40, 0x80 + (c / 0x40) % 0x40, 0x80 + c % 0x40]

/-- UTF-8 encoding of a text (`str.encode()`). -/
def utf8Encode (s : List Nat) : List Nat := (s.map utf8EncodeChar).flatten

/-- Decode one UTF-8 character from the head of a byte list, returning the
code point and the remaining bytes.  Rejects stray continuation bytes,
truncated sequences, overlong forms, surrogates and out-of-range values,
as Python's strict `bytes.decode()` does. -/
def utf8DecodeChar : List Nat → Option (Nat × List Nat)
  | [] => none
  | b0 :: t =>
    if b0 < 0x80 then some (b0, t)
    else if b0 < 0xC0 then none
    else if b0 < 0xE0 then
      match t with
      | b1 :: t1 =>
        if 0x80 ≤ b1 ∧ b1 < 0xC0 then
          let v := (b0 - 0xC0) * 0x40 + (b1 - 0x80)
          if 0x80 ≤ v then some (v, t1) else none
        else none
      | [] => none
    else if b0 < 0xF0 then
      match t with
      | b1 :: b2 :: t2 =>
        if (0x80 ≤ b1 ∧ b1 < 0xC0) ∧ (0x80 ≤ b2 ∧ b2 < 0xC0) then
          let v := (b0 - 0xE0) * 0x1000 + (b1 - 0x80) * 0x40 + (b2 - 0x80)
          if 0x800 ≤ v ∧ ¬(0xD800 ≤ v ∧ v < 0xE000) then some (v, t2) else none
        else none
      | _ => none
    else if b0 < 0xF8 then
      match t with
      | b1 :: b2 :: b3 :: t3 =>
        if (0x80 ≤ b1 ∧ b1 < 0xC0) ∧ ((0x80 ≤ b2 ∧ b2 < 0xC0) ∧ (0x80 ≤ b3 ∧ b3 < 0xC0)) then
          let v := (b0 - 0xF0) * 0x40000 + (b1 - 0x80) * 0x1000 + (b2 - 0x80) * 0x40 + (b3 - 0x80)
          if 0x10000 ≤ v ∧ v < 0x110000 then some (v, t3) else none
        else none
      | _ => none
    else none

/-- Fuel-bounded UTF-8 decoding of a whole byte list; each step consumes at
least one byte, so fuel = length of the list always suffices. -/
def utf8DecodeAux : Nat → List Nat → Option (List Nat)
  | _, [] => some []
  | 0, _ :: _ => none
  | fuel + 1, b :: t =>
    match utf8DecodeChar (b :: t) with
    | none => none
    | some (c, rest) => (utf8DecodeAux fuel rest).map (fun s => c :: s)

/-- UTF-8 decoding of a byte list (`bytes.decode()`); `none` models a
`UnicodeDecodeError`. -/
def utf8Decode (l : List Nat) : Option (List Nat) := utf8DecodeAux l.length l

/-- `struct.pack('i', n)` for `0 ≤ n < 2^31`: four little-endian bytes
(native byte order of the reference platform). -/
def pack_i (n : Nat) : List Nat :=
  [n % 256, (n / 256) % 256, (n / 65536) % 256, (n / 16777216) % 256]

/-- `struct.unpack('i', b)[0]` on four bytes: signed 32-bit, little-endian. -/
def unpack_i (b : List Nat) : Int :=
  match b with
  | [a0, a1, a2, a3] =>
    let u := a0 + 256 * a1 + 65536 * a2 + 16777216 * a3
    if u < 2 ^ 31 then (u : Int) else (u : Int) - 2 ^ 32
  | _ => 0

/-- The daemon's response header (targetclid.py line 172):
`struct.pack('i', len(output))` — note `len(output)` counts characters of
the Python string, not its UTF-8 bytes. -/
def encode_header (output : List Nat) : List Nat := pack_i output.length

/-- The daemon's response body (line 175): `output.encode()`. -/
def encode_body (output : List Nat) : List Nat := utf8Encode output

/-- The full byte sequence the daemon sends for a response (lines 172-175):
the 4-byte header, then — only when `len(output)` is nonzero — the encoded
body. -/
def encode_response (output : List Nat) : List Nat :=
  encode_header output ++ (if output.length ≠ 0 then encode_body output else [])

/-- The client's chunked receive loop (targetcli_shell.py lines 166-175):
while fewer than `expected` units have been counted, take the next `recv`
chunk, decode it on the spot (`data.decode()`), add the decoded character
count to the tally and append the decoded text.  `none` models either a
`UnicodeDecodeError` on a chunk or the stream ending while the loop still
waits for more data. -/
def recvLoop (expected : Int) (chunks : List (List Nat)) (received : Int) (acc : List Nat) :
    Option (List Nat) :=
  if received < expected then
    match chunks with
    | [] => none
    | ch :: rest =>
      match utf8Decode ch with
      | none => none
      | some s => recvLoop expected rest (received + s.length) (acc ++ s)
  else some acc

/-- The client's response decoding (lines 163-175): unpack the 4-byte
header, then run the chunked receive loop from a zero tally. -/
def decode_response (header : List Nat) (chunks : List (List Nat)) : Option (List Nat) :=
  recvLoop (unpack_i header) chunks 0 []

/-- Decoding one character from an encoded character followed by anything
recovers the character and leaves the rest untouched. -/
theorem utf8DecodeChar_encodeChar (c : Nat) (r : List Nat) (hc : validCP c = true) :
    utf8DecodeChar (utf8EncodeChar c ++ r) = some (c, r) := by
  simp only [validCP, Bool.or_eq_true, Bool.and_eq_true, decide_eq_true_eq] at hc
  unfold utf8EncodeChar
  by_cases h1 : c < 0x80
  · simp only [if_pos h1, List.cons_append, List.nil_append]
    simp only [utf8DecodeChar]
    simp only [if_pos h1]
  · by_cases h2 : c < 0x800
    · simp only [if_neg h1, if_pos h2, List.cons_append, List.nil_append]
      simp only [utf8DecodeChar]
      rw [if_neg (by omega), if_neg (by omega), if_pos (by omega), if_pos (by constructor <;> omega)]
      rw [if_pos (by omega)]
      have : (0xC0 + c / 0x40 - 0xC0) * 0x40 + (0x80 + c % 0x40 - 0x80) = c := by omega
      simp only [this]
    · by_cases h3 : c < 0x10000
      · simp only [if_neg h1, if_neg h2, if_pos h3, List.cons_append, List.nil_append]
        simp only [utf8DecodeChar]
        rw [if_neg (by omega), if_neg (by omega), if_neg (by omega), if_pos (by omega),
          if_pos (by refine ⟨⟨by omega, by omega⟩, by omega, by omega⟩)]
        have hv : (0xE0 + c / 0x1000 - 0xE0) * 0x1000 + (0x80 + c / 0x40 % 0x40 - 0x80) * 0x40 +
            (0x80 + c % 0x40 - 0x80) = c := by omega
        rw [if_pos (by constructor <;> omega)]
        simp only [hv]
      · simp only [if_neg h1, if_neg h2, if_neg h3, List.cons_append, List.nil_append]
        simp only [utf8DecodeChar]
        rw [if_neg (by omega), if_neg (by omega), if_neg (by omega), if_neg (by omega),
          if_pos (by omega),
          if_pos (by refine ⟨⟨by omega, by omega⟩, ⟨by omega, by omega⟩, by omega, by omega⟩)]
        have hv : (0xF0 + c / 0x40000 - 0xF0) * 0x40000 + (0x80 + c / 0x1000 % 0x40 - 0x80) * 0x1000 +
            (0x80 + c / 0x40 % 0x40 - 0x80) * 0x40 + (0x80 + c % 0x40 - 0x80) = c := by omega
        rw [if_pos (by constructor <;> omega)]
        simp only [hv]

/-- Every encoded character occupies at least one byte. -/
theorem utf8EncodeChar_length_pos (c : Nat) : 0 < (utf8EncodeChar c).length := by
  unfold utf8EncodeChar
  split_ifs <;> simp

/-- A text is never longer (in characters) than its encoding (in bytes). -/
theorem length_le_utf8Encode_length (s : List Nat) : s.length ≤ (utf8Encode s).length := by
  induction s with
  | nil => simp [utf8Encode]
  | cons c t ih =>
    simp only [utf8Encode, List.map_cons, List.flatten_cons, List.length_append,
      List.length_cons] at *
    have := utf8EncodeChar_length_pos c
    omega

/-- Decoding with enough fuel peels off a fully encoded text from the front
of a byte stream. -/
theorem utf8DecodeAux_encode (s : List Nat) (t : List Nat) (fuel : Nat)
    (hs : validText s = true) :
    utf8DecodeAux (s.length + fuel) (utf8Encode s ++ t) =
      (utf8DecodeAux fuel t).map (fun u => s ++ u) := by
  induction s with
  | nil =>
    simp only [List.length_nil, Nat.zero_add, utf8Encode, List.map_nil, List.flatten_nil,
      List.nil_append]
    cases hfd : utf8DecodeAux fuel t <;> simp
  | cons c s' ih =>
    simp only [validText, List.all_cons, Bool.and_eq_true] at hs
    have hvc := hs.1
    have hvs' : validText s' = true := hs.2
    have hflat : utf8Encode (c :: s') ++ t = utf8EncodeChar c ++ (utf8Encode s' ++ t) := by
      simp [utf8Encode]
    rw [hflat]
    have hne : utf8EncodeChar c ++ (utf8Encode s' ++ t) ≠ [] := by
      have := utf8EncodeChar_length_pos c
      intro hemp
      have := congrArg List.length hemp
      simp only [List.length_append, List.length_nil] at this
      omega
    obtain ⟨b, bs, hbbs⟩ : ∃ b bs, utf8EncodeChar c ++ (utf8Encode s' ++ t) = b :: bs := by
      cases hl : utf8EncodeChar c ++ (utf8Encode s' ++ t) with
      | nil => exact absurd hl hne
      | cons b bs => exact ⟨b, bs, rfl⟩
    have hlen : (c :: s').length + fuel = (s'.length + fuel) + 1 := by simp; omega
    rw [hlen, hbbs]
    show (match utf8DecodeChar (b :: bs) with
      | none => none
      | some (c', rest) => (utf8DecodeAux (s'.length + fuel) rest).map (fun u => c' :: u)) = _
    rw [← hbbs, utf8DecodeChar_encodeChar c _ hvc]
    simp only [ih hvs', Option.map_map]
    cases utf8DecodeAux fuel t <;> simp [Function.comp]

/-- UTF-8 decode is a left inverse of UTF-8 encode on valid texts. -/
theorem utf8Decode_utf8Encode (s : List Nat) (hs : validText s = true) :
    utf8Decode (utf8Encode s) = some s := by
  have hle := length_le_utf8Encode_length s
  have hsplit : (utf8Encode s).length = s.length + ((utf8Encode s).length - s.length) := by omega
  unfold utf8Decode
  rw [hsplit, ← List.append_nil (utf8Encode s), utf8DecodeAux_encode s [] _ hs]
  simp [utf8DecodeAux]

/-- Unpacking a packed length below `2^31` gives back the length. -/
theorem unpack_i_pack_i (n : Nat) (h : n < 2 ^ 31) : unpack_i (pack_i n) = n := by
  simp only [pack_i, unpack_i]
  have hu : n % 256 + 256 * (n / 256 % 256) + 65536 * (n / 65536 % 256) +
      16777216 * (n / 16777216 % 256) = n := by omega
  rw [if_pos (by omega)]
  push_cast
  omega

/-- The header produced by the daemon is always exactly four bytes. -/
theorem encode_header_length (output : List Nat) : (encode_header output).length = 4 := rfl

/-- When every `recv` chunk is the encoding of a whole-character segment,
the client's per-chunk decoding loop reassembles the concatenation of the
segments. -/
theorem recvLoop_segments (segs : List (List Nat)) :
    ∀ (received : Int) (acc : List Nat) (expected : Int),
    (∀ sg ∈ segs, validText sg = true) →
    expected = received + (segs.flatten).length →
    recvLoop expected (segs.map utf8Encode) received acc = some (acc ++ segs.flatten) := by
  induction segs with
  | nil =>
    intro received acc expected _ he
    simp only [List.flatten_nil, List.length_nil, Nat.cast_zero, Int.add_zero] at he
    simp only [List.map_nil]
    rw [recvLoop, if_neg (by omega)]
    simp
  | cons sg rest ih =>
    intro received acc expected hv he
    simp only [List.flatten_cons, List.length_append, Nat.cast_add] at he
    by_cases hlt : received < expected
    · simp only [List.map_cons]
      rw [recvLoop, if_pos hlt]
      rw [utf8Decode_utf8Encode sg (hv sg (by simp))]
      have hrec := ih (received + sg.length) (acc ++ sg) expected
        (fun x hx => hv x (by simp [hx])) (by omega)
      simp only [List.flatten_cons, List.append_assoc] at hrec ⊢
      exact hrec
    · have hz : (sg.length : Int) + rest.flatten.length = 0 := by omega
      have hsg : sg = [] := by
        have : sg.length = 0 := by omega
        exact List.length_eq_zero.mp this
      have hrest : rest.flatten = [] := by
        have : rest.flatten.length = 0 := by omega
        exact List.length_eq_zero.mp this
      simp only [List.map_cons]
      rw [recvLoop, if_neg hlt]
      simp [hsg, hrest]

/-- C1: the claim as stated is false on the code.  The text consisting of
the single code point U+00E9 encodes to the two bytes `[0xC3, 0xA9]`; the
partial-read schedule that delivers them in two chunks of one byte each
(both nonempty and at most 1024 bytes, concatenating to the full body)
makes the client's per-chunk `data.decode()` fail, so decoding returns
`none` instead of the original text. -/
theorem framing_roundtrip_split_fails :
    validText [0xE9] = true ∧
    ([[0xC3], [0xA9]] : List (List Nat)).flatten = utf8Encode [0xE9] ∧
    ([0xC3] : List Nat).length ≤ 1024 ∧ ([0xA9] : List Nat).length ≤ 1024 ∧
    ([0xC3] : List Nat) ≠ [] ∧ ([0xA9] : List Nat) ≠ [] ∧
    decode_response (encode_header [0xE9]) [[0xC3], [0xA9]] = none ∧
    (none : Option (List Nat)) ≠ some [0xE9] := by decide

/-- C1 (amended): framing round-trip holds for every text — including the
empty text and texts of multi-byte UTF-8 characters — provided each chunked
partial read delivers the encoding of whole characters (the read boundaries
never split a multi-byte UTF-8 sequence): decoding the daemon's encoded
response then reproduces the original text exactly.  If a boundary does
split a sequence, the client's per-chunk decode raises instead. -/
theorem framing_roundtrip_char_aligned (text : List Nat) (segs : List (List Nat))
    (hval : validText text = true)
    (hlen : text.length < 2 ^ 31)
    (hjoin : segs.flatten = text)
    (hchunk : ∀ sg ∈ segs, (utf8Encode sg).length ≤ 1024) :
    decode_response (encode_header text) (segs.map utf8Encode) = some text := by
  unfold decode_response encode_header
  rw [unpack_i_pack_i _ hlen]
  have hv : ∀ sg ∈ segs, validText sg = true := by
    intro sg hsg
    simp only [validText, List.all_eq_true] at hval ⊢
    intro c hc
    exact hval c (by rw [← hjoin]; exact List.mem_flatten.mpr ⟨sg, hsg, hc⟩)
  have h := recvLoop_segments segs 0 [] text.length hv (by rw [hjoin]; omega)
  rw [h, hjoin]
  simp

/-- Witness for the amended C1 at the concrete text "aé" delivered in two
character-aligned chunks. -/
theorem framing_roundtrip_char_aligned_witness :
    decode_response (encode_header [0x61, 0xE9]) ([[0x61], [0xE9]].map utf8Encode) =
      some [0x61, 0xE9] :=
  framing_roundtrip_char_aligned [0x61, 0xE9] [[0x61], [0xE9]]
    (by decide) (by decide) (by decide) (by decide)

/-- C4: the claim as stated is false on the code.  For the one-character
text U+00E9 the UTF-8 body has 2 bytes, but the daemon's 4-byte header
(`struct.pack('i', len(output))`) carries the value 1: the header holds the
character count of the text, not its UTF-8 byte count. -/
theorem encode_header_not_byte_count :
    (utf8Encode [0xE9]).length = 2 ∧
    unpack_i (encode_header [0xE9]) = 1 ∧
    ((1 : Int) ≠ 2) := by decide

/-- C4 (amended): for every response text whose length is below `2^31`, the
daemon sends a 4-byte native-endian signed-32-bit header whose value equals
the number of characters (code points) of the text — which equals the UTF-8
byte count only when all characters are ASCII — followed by exactly the
UTF-8-encoded bytes of the text; when the text is empty, only the 4-byte
zero-valued header is sent and no body. -/
theorem encode_response_spec (output : List Nat) (hlen : output.length < 2 ^ 31) :
    (encode_header output).length = 4 ∧
    unpack_i (encode_header output) = output.length ∧
    encode_response output = encode_header output ++ utf8Encode output ∧
    (output = [] → encode_response output = pack_i 0) := by
  refine ⟨encode_header_length output, unpack_i_pack_i _ hlen, ?_, ?_⟩
  · unfold encode_response encode_body
    by_cases h : output.length ≠ 0
    · rw [if_pos h]
    · simp only [ne_eq, Decidable.not_not] at h
      have : output = [] := List.length_eq_zero.mp h
      subst this
      simp [utf8Encode]
  · intro h
    subst h
    simp [encode_response, encode_header, pack_i]

/-- Witness for the amended C4 at the concrete text "aé". -/
theorem encode_response_spec_witness :
    (encode_header [0x61, 0xE9]).length = 4 ∧
    unpack_i (encode_header [0x61, 0xE9]) = ([0x61, 0xE9] : List Nat).length ∧
    encode_response [0x61, 0xE9] = encode_header [0x61, 0xE9] ++ utf8Encode [0x61, 0xE9] ∧
    ([0x61, 0xE9] = ([] : List Nat) → encode_response [0x61, 0xE9] = pack_i 0) :=
  encode_response_spec [0x61, 0xE9] (by decide)

/-! ## Command batching

The '%'-delimited batch protocol: the daemon splits a request on '%' and
runs each command (`client_thread`, targetclid.py lines 156-167); the client
joins buffered commands with '%' and builds requests (`call_daemon` and
`switch_to_daemon`, targetcli_shell.py).  Command text is modelled as
`List Char`. -/

/-- `s.split('%')` on a character list (Python's `str.split` on a one-char
separator: splitting the empty string yields one empty field). -/
def splitOnPercent : List Char → List (List Char)
  | [] => [[]]
  | c :: rest =>
    match splitOnPercent rest with
    | [] => [[]]
    | h :: t => if c = '%' then [] :: h :: t else (c :: h) :: t

/-- `'%'.join(l)` on character lists. -/
def joinPercent : List (List Char) → List Char
  | [] => []
  | [s] => s
  | s :: s2 :: rest => s ++ '%' :: joinPercent (s2 :: rest)

/-- The daemon's per-request execution (targetclid.py lines 156-167): run
the '%'-split commands in order against the shell, writing each command's
captured output to the temporary stream; the whole loop sits in one
`try`, so the first command that raises ends the loop and the exception's
textual representation is printed to the stream instead.  `exec` abstracts
`self.shell.run_cmdline`: `.ok` is the text a command writes, `.error` the
text of the exception it raises.  Returns the captured output together with
the list of commands that were actually executed. -/
def runBatchCmds (exec : List Char → Except (List Char) (List Char)) :
    List (List Char) → List Char → List Char × List (List Char)
  | [], out => (out, [])
  | c :: cs, out =>
    match exec c with
    | Except.ok o =>
      match runBatchCmds exec cs (out ++ o) with
      | (out', ran) => (out', c :: ran)
    | Except.error e => (out ++ e, [c])

/-- The daemon's handling of one request that is not the end-of-session
sentinel: decode, split on '%', run the commands, capture the output. -/
def client_thread_handle (exec : List Char → Except (List Char) (List Char))
    (req : List Char) : List Char × List (List Char) :=
  runBatchCmds exec (splitOnPercent req) []

example : splitOnPercent ('a' :: '%' :: 'b' :: []) = [['a'], ['b']] := by decide
example : splitOnPercent [] = [[]] := by decide
example : joinPercent [['a'], ['b']] = ['a', '%', 'b'] := by decide

/-- `splitOnPercent` never returns an empty list of fields. -/
theorem splitOnPercent_ne_nil (s : List Char) : splitOnPercent s ≠ [] := by
  cases s with
  | nil => simp [splitOnPercent]
  | cons c rest =>
    simp only [splitOnPercent]
    match h : splitOnPercent rest with
    | [] => simp
    | h' :: t => by_cases hc : c = '%' <;> simp [hc]

/-- Splitting a '%'-free string yields that single field. -/
theorem splitOnPercent_no_percent (s : List Char) (h : '%' ∉ s) :
    splitOnPercent s = [s] := by
  induction s with
  | nil => rfl
  | cons c rest ih =>
    simp only [List.mem_cons, not_or] at h
    simp only [splitOnPercent, ih h.2]
    rw [if_neg (fun hc => h.1 hc.symm)]

/-- Splitting after a '%'-free field peels off exactly that field. -/
theorem splitOnPercent_append (s t : List Char) (h : '%' ∉ s) :
    splitOnPercent (s ++ '%' :: t) = s :: splitOnPercent t := by
  induction s with
  | nil =>
    simp only [List.nil_append, splitOnPercent]
    match ht : splitOnPercent t with
    | [] => exact absurd ht (splitOnPercent_ne_nil t)
    | h' :: t' => simp
  | cons c rest ih =>
    simp only [List.mem_cons, not_or] at h
    simp only [List.cons_append, splitOnPercent, List.append_eq, ih h.2]
    rw [if_neg (fun hc => h.1 hc.symm)]

/-- Splitting is a left inverse of joining for nonempty lists of
'%'-free commands (the spec's reserved-delimiter invariant). -/
theorem splitOnPercent_joinPercent (l : List (List Char)) (hne : l ≠ [])
    (h : ∀ s ∈ l, '%' ∉ s) : splitOnPercent (joinPercent l) = l := by
  induction l with
  | nil => exact absurd rfl hne
  | cons s rest ih =>
    cases rest with
    | nil =>
      show splitOnPercent (joinPercent [s]) = [s]
      simp only [joinPercent]
      exact splitOnPercent_no_percent s (h s (by simp))
    | cons s2 rest2 =>
      have hj : joinPercent (s :: s2 :: rest2) = s ++ '%' :: joinPercent (s2 :: rest2) := rfl
      rw [hj, splitOnPercent_append s _ (h s (by simp)),
        ih (by simp) (fun x hx => h x (by simp [hx]))]

/-- Concatenated captured output of a list of commands that all succeed. -/
def okOutputs (exec : List Char → Except (List Char) (List Char)) :
    List (List Char) → List Char
  | [] => []
  | c :: cs =>
    (match exec c with
     | Except.ok o => o
     | Except.error e => e) ++ okOutputs exec cs

/-- When every command of a batch succeeds, the daemon executes all of them
in order and captures their outputs in order. -/
theorem runBatchCmds_all_ok (exec : List Char → Except (List Char) (List Char))
    (cmds : List (List Char)) :
    ∀ out : List Char, (∀ c ∈ cmds, ∃ o, exec c = Except.ok o) →
    runBatchCmds exec cmds out = (out ++ okOutputs exec cmds, cmds) := by
  induction cmds with
  | nil => intro out _; simp [runBatchCmds, okOutputs]
  | cons c cs ih =>
    intro out hok
    obtain ⟨o, ho⟩ := hok c (by simp)
    simp only [runBatchCmds, okOutputs, ho]
    rw [ih (out ++ o) (fun x hx => hok x (by simp [hx]))]
    simp

/-- When the commands before `c` succeed and `c` raises `e`, the daemon
stops after `c`: the captured output is the successful outputs followed by
the exception text, and none of the commands after `c` is executed. -/
theorem runBatchCmds_error (exec : List Char → Except (List Char) (List Char))
    (pre : List (List Char)) (c : List Char) (post : List (List Char)) (e : List Char) :
    ∀ out : List Char, (∀ p ∈ pre, ∃ o, exec p = Except.ok o) →
    exec c = Except.error e →
    runBatchCmds exec (pre ++ c :: post) out =
      (out ++ okOutputs exec pre ++ e, pre ++ [c]) := by
  induction pre with
  | nil =>
    intro out _ he
    simp [runBatchCmds, okOutputs, he]
  | cons p ps ih =>
    intro out hok he
    obtain ⟨o, ho⟩ := hok p (by simp)
    simp only [List.cons_append, runBatchCmds, okOutputs, List.append_eq, ho]
    rw [ih (out ++ o) (fun x hx => hok x (by simp [hx])) he]
    simp

/-- A concrete command interpreter for counterexamples: the command "b"
raises the exception "E"; every other command writes itself as output. -/
def execDemo : List Char → Except (List Char) (List Char) :=
  fun c => if c = ['b'] then Except.error ['E'] else Except.ok c

/-- C3: the claim as stated is false on the code.  With the batch "a%b%c"
where command "b" raises, the daemon catches the exception and appends its
text to the output without crashing, but the `for` loop sits inside the
`try`, so command "c" — a subsequent command of the batch — is never
executed. -/
theorem batch_error_stops_remaining :
    client_thread_handle execDemo ('a' :: '%' :: 'b' :: '%' :: 'c' :: []) =
      ('a' :: 'E' :: [], [['a'], ['b']]) ∧
    (['c'] ∉ (client_thread_handle execDemo ('a' :: '%' :: 'b' :: '%' :: 'c' :: [])).2) := by
  constructor
  · rfl
  · decide

/-- C3 (amended): for every '%'-delimited batch, if one command raises an
exception while all commands before it succeeded, the exception's textual
representation is appended to the captured output after the outputs of the
preceding commands, the daemon does not crash (a response is still
produced for the connection), but execution of the batch stops there: the
executed commands are exactly the preceding ones plus the failing one, and
no later command of the batch runs. -/
theorem batch_error_recovery (exec : List Char → Except (List Char) (List Char))
    (pre : List (List Char)) (c : List Char) (post : List (List Char)) (e : List Char)
    (req : List Char)
    (hsplit : splitOnPercent req = pre ++ c :: post)
    (hok : ∀ p ∈ pre, ∃ o, exec p = Except.ok o)
    (he : exec c = Except.error e) :
    client_thread_handle exec req = (okOutputs exec pre ++ e, pre ++ [c]) ∧
    (∀ d ∈ post, d ∉ (client_thread_handle exec req).2 ∨ d ∈ pre ∨ d = c) := by
  have hmain : client_thread_handle exec req = (okOutputs exec pre ++ e, pre ++ [c]) := by
    unfold client_thread_handle
    rw [hsplit, runBatchCmds_error exec pre c post e [] hok he]
    simp
  refine ⟨hmain, ?_⟩
  intro d _hd
  by_cases hdp : d ∈ pre
  · exact Or.inr (Or.inl hdp)
  · by_cases hdc : d = c
    · exact Or.inr (Or.inr hdc)
    · refine Or.inl ?_
      rw [hmain]
      simp only [List.mem_append, List.mem_singleton]
      rintro (h | h)
      · exact hdp h
      · exact hdc h

/-- Witness for the amended C3 at the concrete batch "a%b%c" under
`execDemo`. -/
theorem batch_error_recovery_witness :
    client_thread_handle execDemo ('a' :: '%' :: 'b' :: '%' :: 'c' :: []) =
      (okOutputs execDemo [['a']] ++ ['E'], [['a']] ++ [['b']]) ∧
    (∀ d ∈ [['c']],
      d ∉ (client_thread_handle execDemo ('a' :: '%' :: 'b' :: '%' :: 'c' :: [])).2 ∨
      d ∈ [['a']] ∨ d = ['b']) :=
  batch_error_recovery execDemo [['a']] ['b'] [['c']] ['E']
    ('a' :: '%' :: 'b' :: '%' :: 'c' :: [])
    (by decide) (by intro p hp; simp at hp; exact ⟨['a'], by simp [hp, execDemo]⟩)
    (by rfl)

/-! ## Client request building and input loops

`call_daemon` (targetcli_shell.py lines 124-191) and `switch_to_daemon`
(lines 193-245). -/

/-- `p` occurs as a contiguous substring of `l` (Python's `in` on strings). -/
def leadMatch : List Char → List Char → Bool
  | [], _ => true
  | _ :: _, [] => false
  | p :: ps, c :: cs => p = c && leadMatch ps cs

/-- Substring containment check used for `"cd " in req`. -/
def subMatch (p : List Char) : List Char → Bool
  | [] => leadMatch p []
  | c :: cs => leadMatch p (c :: cs) || subMatch p cs

/-- The request-rewriting step of `call_daemon` (lines 142-154): in
interactive mode an empty (or absent) request becomes "pwd", a request
containing "cd " gets "%pwd" appended; in non-interactive mode the request
is prefixed with "cd /" and the '%' delimiter, so evaluation always starts
from the root.  Python's `if not req` treats `None` and the empty string
alike, so the absent request is modelled as `[]`. -/
def call_daemon_request (interactive : Bool) (req : List Char) : List Char :=
  if interactive then
    if req = [] then 'p' :: 'w' :: 'd' :: []
    else if subMatch ('c' :: 'd' :: ' ' :: []) req then req ++ '%' :: 'p' :: 'w' :: 'd' :: []
    else req
  else 'c' :: 'd' :: ' ' :: '/' :: '%' :: req

/-- `" ".join(argv)`: the one-shot command line built by `switch_to_daemon`
(line 203) from the CLI arguments. -/
def joinSpace : List (List Char) → List Char
  | [] => []
  | [s] => s
  | s :: s2 :: rest => s ++ ' ' :: joinSpace (s2 :: rest)

/-- The request a one-shot (non-interactive) invocation sends to the daemon
(lines 202-204 with `call_daemon(shell, command, False)`). -/
def oneshot_request (argv : List (List Char)) : List Char :=
  call_daemon_request false (joinSpace argv)

example : oneshot_request [['l', 's']] = 'c' :: 'd' :: ' ' :: '/' :: '%' :: 'l' :: 's' :: [] := by
  decide

/-- C7: every one-shot request is the joined command line prefixed with the
absolute-path reset "cd /" and the '%' delimiter; consequently, whatever
commands the arguments contain, the first command the daemon splits off and
executes is exactly "cd /", so evaluation is independent of any working
directory a previous session left behind. -/
theorem oneshot_request_resets_to_root (argv : List (List Char))
    (exec : List Char → Except (List Char) (List Char)) :
    oneshot_request argv = ('c' :: 'd' :: ' ' :: '/' :: []) ++ '%' :: joinSpace argv ∧
    (splitOnPercent (oneshot_request argv)).head? = some ('c' :: 'd' :: ' ' :: '/' :: []) ∧
    (client_thread_handle exec (oneshot_request argv)).2.head? =
      some ('c' :: 'd' :: ' ' :: '/' :: []) := by
  have h1 : oneshot_request argv = ('c' :: 'd' :: ' ' :: '/' :: []) ++ '%' :: joinSpace argv := rfl
  have h2 : splitOnPercent (oneshot_request argv) =
      ('c' :: 'd' :: ' ' :: '/' :: []) :: splitOnPercent (joinSpace argv) := by
    rw [h1]
    exact splitOnPercent_append _ _ (by decide)
  refine ⟨h1, by rw [h2]; rfl, ?_⟩
  unfold client_thread_handle
  rw [h2]
  simp only [runBatchCmds]
  cases exec ('c' :: 'd' :: ' ' :: '/' :: []) with
  | ok o =>
    simp only []
    cases hr : runBatchCmds exec (splitOnPercent (joinSpace argv)) ([] ++ o) with
    | mk out ran => simp
  | error e => simp

/-- The exit-keyword test of the client loops (line 225):
`command.lower() == "exit"`. -/
def isExitLine (l : List Char) : Bool :=
  l.map Char.toLower = 'e' :: 'x' :: 'i' :: 't' :: []

/-- The batch-mode input loop of `switch_to_daemon` (lines 221-234,
`interactive = False`) over a list of typed lines: a line whose lowercase
form is "exit" is appended to the buffer and ends collection (the joined
buffer is then transmitted); an empty line is skipped (`continue`); any
other line is appended and collection continues.  Returns the transmitted
buffer, or `none` when the input ends without an exit line (the `input()`
call then raises `EOFError`). -/
def batch_loop : List (List Char) → List (List Char) → Option (List (List Char))
  | [], _ => none
  | line :: rest, inputs =>
    if isExitLine line then some (inputs ++ [line])
    else if line = [] then batch_loop rest inputs
    else batch_loop rest (inputs ++ [line])

/-- The interactive-mode input loop of `switch_to_daemon` (lines 221-243,
`interactive = True`) over a list of typed lines, with `respond` abstracting
the daemon's answer (the path returned by `call_daemon`): an exit line
breaks out without sending; an empty line is skipped; any other line is sent
as a request built by `call_daemon_request`, and the prompt is updated to
the returned path when that path starts with '/'.  Returns the final prompt
and the list of requests sent. -/
def interactive_loop (respond : List Char → List Char) :
    List (List Char) → List Char → List Char × List (List Char)
  | [], prompt => (prompt, [])
  | line :: rest, prompt =>
    if isExitLine line then (prompt, [])
    else if line = [] then interactive_loop respond rest prompt
    else
      let req := call_daemon_request true line
      let path := respond req
      let prompt' := match path with
        | [] => prompt
        | p :: _ => if p = '/' then path else prompt
      match interactive_loop respond rest prompt' with
      | (pf, sent) => (pf, req :: sent)

example : batch_loop [['l', 's'], [], ['e', 'x', 'i', 't']] [] =
    some [['l', 's'], ['e', 'x', 'i', 't']] := by decide
example : batch_loop [['l', 's']] [] = none := by decide
example :
    interactive_loop (fun _ => ['/']) [[], ['l', 's'], ['E', 'X', 'I', 'T']] ['/'] =
      (['/'], [['l', 's']]) := by decide

/-- Whatever ends up in the transmitted batch buffer either was there
before the loop ran or is one of the typed lines. -/
theorem batch_loop_mem (lines : List (List Char)) :
    ∀ (inputs r : List (List Char)), batch_loop lines inputs = some r →
    ∀ x ∈ r, x ∈ inputs ∨ x ∈ lines := by
  induction lines with
  | nil => intro inputs r h; exact absurd h (by simp [batch_loop])
  | cons line rest ih =>
    intro inputs r h x hx
    simp only [batch_loop] at h
    by_cases hex : isExitLine line
    · rw [if_pos hex] at h
      obtain rfl : inputs ++ [line] = r := Option.some.injEq _ _ ▸ h
      rcases List.mem_append.mp hx with h' | h'
      · exact Or.inl h'
      · exact Or.inr (by simp at h'; simp [h'])
    · rw [if_neg hex] at h
      by_cases hemp : line = []
      · rw [if_pos hemp] at h
        rcases ih inputs r h x hx with h' | h'
        · exact Or.inl h'
        · exact Or.inr (by simp [h'])
      · rw [if_neg hemp] at h
        rcases ih (inputs ++ [line]) r h x hx with h' | h'
        · rcases List.mem_append.mp h' with h'' | h''
          · exact Or.inl h''
          · exact Or.inr (by simp at h''; simp [h''])
        · exact Or.inr (by simp [h'])

/-- A successful batch collection ends with the line that terminated it:
the buffer is nonempty and its last element is an exit line. -/
theorem batch_loop_last (lines : List (List Char)) :
    ∀ (inputs r : List (List Char)), batch_loop lines inputs = some r →
    r ≠ [] ∧ isExitLine (r.getLast?.getD []) = true := by
  induction lines with
  | nil => intro inputs r h; exact absurd h (by simp [batch_loop])
  | cons line rest ih =>
    intro inputs r h
    simp only [batch_loop] at h
    by_cases hex : isExitLine line
    · rw [if_pos hex] at h
      obtain rfl : inputs ++ [line] = r := Option.some.injEq _ _ ▸ h
      constructor
      · simp
      · rw [List.getLast?_append]
        · simpa using hex
    · rw [if_neg hex] at h
      by_cases hemp : line = []
      · rw [if_pos hemp] at h; exact ih inputs r h
      · rw [if_neg hemp] at h; exact ih (inputs ++ [line]) r h

/-- C9: in batch mode the terminating line is appended to the buffer before
the termination check, so when the typed lines are valid batch commands
(none contains the reserved '%' delimiter), the transmitted '%'-joined
request always carries the exit keyword line as its final '%'-delimited
command, and the daemon — which splits the request and runs every field —
executes it like any other command (here shown when all commands succeed:
the executed list is exactly the split fields, exit line included). -/
theorem batch_exit_is_final_command (lines inputs : List (List Char))
    (exec : List Char → Except (List Char) (List Char))
    (hrun : batch_loop lines [] = some inputs)
    (hnp : ∀ l ∈ lines, '%' ∉ l)
    (hok : ∀ c ∈ inputs, ∃ o, exec c = Except.ok o) :
    inputs ≠ [] ∧
    splitOnPercent (joinPercent inputs) = inputs ∧
    isExitLine ((splitOnPercent (joinPercent inputs)).getLast?.getD []) = true ∧
    (client_thread_handle exec (joinPercent inputs)).2 = splitOnPercent (joinPercent inputs) := by
  have hmem := batch_loop_mem lines [] inputs hrun
  have hlast := batch_loop_last lines [] inputs hrun
  have hnp' : ∀ s ∈ inputs, '%' ∉ s := by
    intro s hs
    rcases hmem s hs with h | h
    · exact absurd h (List.not_mem_nil s)
    · exact hnp s h
  have hsj : splitOnPercent (joinPercent inputs) = inputs :=
    splitOnPercent_joinPercent inputs hlast.1 hnp'
  refine ⟨hlast.1, hsj, by rw [hsj]; exact hlast.2, ?_⟩
  unfold client_thread_handle
  rw [hsj, runBatchCmds_all_ok exec inputs [] hok]

/-- Witness for C9 at the lines ["ls", "Exit"] (the exit keyword typed with
a capital letter) under an interpreter that echoes each command. -/
theorem batch_exit_is_final_command_witness :
    ([['l', 's'], ['E', 'x', 'i', 't']] : List (List Char)) ≠ [] ∧
    splitOnPercent (joinPercent [['l', 's'], ['E', 'x', 'i', 't']]) =
      [['l', 's'], ['E', 'x', 'i', 't']] ∧
    isExitLine ((splitOnPercent (joinPercent [['l', 's'], ['E', 'x', 'i', 't']])).getLast?.getD [])
      = true ∧
    (client_thread_handle (fun c => Except.ok c)
        (joinPercent [['l', 's'], ['E', 'x', 'i', 't']])).2 =
      splitOnPercent (joinPercent [['l', 's'], ['E', 'x', 'i', 't']]) :=
  batch_exit_is_final_command [['l', 's'], ['E', 'x', 'i', 't']]
    [['l', 's'], ['E', 'x', 'i', 't']] (fun c => Except.ok c)
    (by decide) (by decide) (fun c _ => ⟨c, rfl⟩)

/-- C10: in both client loops an empty input line is skipped entirely — the
batch buffer is unchanged and nothing is sent (the loops behave as if the
line had not been typed), and in interactive mode the prompt path is left
as it was; moreover a line is recognised as the exit keyword by comparing
its lowercase form, so the match is case-insensitive: such a line ends the
interactive loop without sending, and ends batch collection with the line
appended. -/
theorem empty_line_skipped_exit_case_insensitive
    (respond : List Char → List Char) (rest : List (List Char)) (prompt : List Char)
    (inputs : List (List Char)) (line : List Char)
    (hline : line.map Char.toLower = 'e' :: 'x' :: 'i' :: 't' :: []) :
    interactive_loop respond ([] :: rest) prompt = interactive_loop respond rest prompt ∧
    batch_loop ([] :: rest) inputs = batch_loop rest inputs ∧
    interactive_loop respond (line :: rest) prompt = (prompt, []) ∧
    batch_loop (line :: rest) inputs = some (inputs ++ [line]) := by
  have hex : isExitLine line = true := by simp [isExitLine, hline]
  refine ⟨?_, ?_, ?_, ?_⟩
  · simp [interactive_loop, isExitLine]
  · simp [batch_loop, isExitLine]
  · simp [interactive_loop, hex]
  · simp [batch_loop, hex]

/-- Witness for C10 with the exit line typed as "EXIT". -/
theorem empty_line_skipped_exit_case_insensitive_witness :
    interactive_loop (fun _ => []) ([] :: []) ['/'] = interactive_loop (fun _ => []) [] ['/'] ∧
    batch_loop ([] :: []) [] = batch_loop [] [] ∧
    interactive_loop (fun _ => []) (('E' :: 'X' :: 'I' :: 'T' :: []) :: []) ['/'] = (['/'], []) ∧
    batch_loop (('E' :: 'X' :: 'I' :: 'T' :: []) :: []) [] =
      some ([] ++ ['E' :: 'X' :: 'I' :: 'T' :: []]) :=
  empty_line_skipped_exit_case_insensitive (fun _ => []) [] ['/'] []
    ('E' :: 'X' :: 'I' :: 'T' :: []) (by decide)

/-! ## Daemon process state machine

`TargetCLI.__init__`, `signal_handler`, `try_pidfile_lock` and `main` of
targetclid.py. -/

/-- The daemon's process state: the `NoSignal` flag, whether the listening
socket is open, and whether the PID-file lock is held. -/
structure DaemonState where
  noSignal : Bool
  sockOpen : Bool
  lockHeld : Bool
deriving DecidableEq, Repr

/-- The termination signals the daemon registers a handler for
(targetclid.py lines 61-63): interrupt, terminate, hangup. -/
inductive Sig
  | int
  | term
  | hup
deriving DecidableEq, Repr

/-- Python exceptions relevant to the daemon's accept loop. -/
inductive PyError
  | typeError
  | osError (eno : Nat)
deriving DecidableEq, Repr

/-- The body of `TargetCLI.signal_handler` (lines 102-108): clear
`NoSignal` and close the listening socket.  This is what the handler would
do if it were ever entered. -/
def signal_handler_body (s : DaemonState) : DaemonState :=
  { s with noSignal := false, sockOpen := false }

/-- The number of positional arguments (beyond the bound `self`) that the
registered handler accepts: `def signal_handler(self):` declares none. -/
def signal_handler_arity : Nat := 0

/-- Python's signal machinery invokes a registered handler as
`handler(signum, frame)`: two positional arguments. -/
def signal_delivery_args : Nat := 2

/-- Delivering a signal to the registered handler (the same bound method is
installed for all three signals, lines 61-63): the interpreter calls it
with `(signum, frame)`; since the method accepts no extra positional
arguments, the call raises `TypeError` before the handler body can run.
Only if the declared arity matched the delivery would the body execute. -/
def invoke_signal_handler (_sg : Sig) (s : DaemonState) : Except PyError DaemonState :=
  if signal_handler_arity = signal_delivery_args then Except.ok (signal_handler_body s)
  else Except.error PyError.typeError

/-- `errno.EBADF`: the error an `accept` on a closed socket raises. -/
def EBADF : Nat := 9

/-- The tail of `main` after the accept loop (lines 272-277): release the
PID-file lock, then exit 0 when a signal was received and 1 otherwise. -/
def daemon_finish (s : DaemonState) : Int × DaemonState :=
  let s' := { s with lockHeld := false }
  if s.noSignal = false then (0, s') else (1, s')

/-- What the daemon observes while blocked in `accept`. -/
inductive DEvent
  | conn
  | signalInAccept (sg : Sig)
deriving DecidableEq, Repr

/-- The daemon's main loop (lines 256-277) over a stream of events: while
`NoSignal` holds, block in `accept`; an accepted connection is handled by a
worker thread that is immediately joined, after which the loop continues.
A signal arriving while the daemon is blocked is delivered to the
registered handler (`invoke_signal_handler`).  Were the delivery to
succeed, the handler would have closed the socket, the interrupted `accept`
would fail with `OSError(EBADF)` — caught by the loop's `except OSError`,
displaying nothing since the errno is `EBADF` and `NoSignal` is false — and
the loop would break into `daemon_finish`.  In fact the delivery raises
`TypeError`, which propagates out of `accept` past `except OSError` and out
of `main`: the process dies with a traceback and exit status 1, its state
unchanged — in particular `release_pidfile_lock` never runs and the
graceful-exit branch is never reached.  `none` models blocking forever in
`accept` with no further event. -/
def daemon_loop : List DEvent → DaemonState → Option (Int × DaemonState)
  | evs, s =>
    if s.noSignal then
      match evs with
      | [] => none
      | DEvent.conn :: rest => daemon_loop rest s
      | DEvent.signalInAccept sg :: _ =>
        match invoke_signal_handler sg s with
        | Except.ok s' => some (daemon_finish s')
        | Except.error _ => some (1, s)
    else some (daemon_finish s)

/-- C2: the claim describes the code's intent, and the code is wrong.  The
handler body would clear the running flag and close the socket, and the
post-loop tail would release the PID lock and exit 0 after a signal (first
three conjuncts) — but the registered handler is
`def signal_handler(self):`, so the interpreter's `handler(signum, frame)`
call raises `TypeError` on every delivery of any of the three registered
signals.  The exception propagates past `except OSError` and the daemon
dies with status 1, the running flag still set, the socket still open and
the PID lock never explicitly released.  Evaluated at the failing input:
each of interrupt, terminate and hangup delivered to a running daemon
(state ⟨true, true, true⟩) blocked in `accept`. -/
theorem signal_delivery_type_error :
    (signal_handler_body ⟨true, true, true⟩).noSignal = false ∧
    (signal_handler_body ⟨true, true, true⟩).sockOpen = false ∧
    daemon_finish ⟨false, false, true⟩ = (0, ⟨false, false, false⟩) ∧
    signal_handler_arity ≠ signal_delivery_args ∧
    invoke_signal_handler Sig.int ⟨true, true, true⟩ = Except.error PyError.typeError ∧
    invoke_signal_handler Sig.term ⟨true, true, true⟩ = Except.error PyError.typeError ∧
    invoke_signal_handler Sig.hup ⟨true, true, true⟩ = Except.error PyError.typeError ∧
    daemon_loop [DEvent.signalInAccept Sig.int] ⟨true, true, true⟩ =
      some (1, ⟨true, true, true⟩) ∧
    daemon_loop [DEvent.signalInAccept Sig.term] ⟨true, true, true⟩ =
      some (1, ⟨true, true, true⟩) ∧
    daemon_loop [DEvent.signalInAccept Sig.hup] ⟨true, true, true⟩ =
      some (1, ⟨true, true, true⟩) ∧
    ((1 : Int) ≠ 0) :=
  ⟨rfl, rfl, rfl, by decide, rfl, rfl, rfl, rfl, rfl, rfl, by decide⟩

/-! ## Daemon startup (single-instance enforcement)

`TargetCLI.__init__` (lines 65-87), `try_pidfile_lock` (lines 111-122) and
the socket setup in `main` (lines 211-254). -/

/-- Environment of one daemon start: whether opening the PID file succeeds,
whether the non-blocking exclusive PID-file lock is available (false when
another daemon instance already holds it), whether building/refreshing the
UIRoot tree succeeds, whether systemd socket activation is in effect
(`LISTEN_PID` set), and whether the socket calls succeed. -/
structure DaemonStartEnv where
  pidOpenOk : Bool
  lockAvailable : Bool
  treeRefreshOk : Bool
  systemdActivation : Bool
  fromfdOk : Bool
  socketCreateOk : Bool
  bindOk : Bool
  listenOk : Bool
deriving DecidableEq, Repr

/-- Side effects a daemon start may have performed when it stops or enters
the accept loop: operations on the socket path (unlinking the stale socket
file, binding a fresh one) and operations on the shared command tree
(constructing and refreshing the UIRoot). -/
structure DaemonStartEffects where
  socketPathTouched : Bool
  treeTouched : Bool
deriving DecidableEq, Repr

/-- The daemon's startup sequence, from `TargetCLI.__init__` through the
socket setup of `main`, recording the exit status (`none` = reached the
accept loop) and the effects: open the PID file (exit 1 on failure), take
the non-blocking PID-file lock (exit 1 if already held), build and refresh
the shared tree (exit 1 on failure), then either adopt the activation
socket or unlink the stale socket path, create, bind (exit 1 on failure)
and listen. -/
def daemon_startup (env : DaemonStartEnv) : Option Int × DaemonStartEffects :=
  if ¬env.pidOpenOk then (some 1, ⟨false, false⟩)
  else if ¬env.lockAvailable then (some 1, ⟨false, false⟩)
  else if ¬env.treeRefreshOk then (some 1, ⟨false, true⟩)
  else if env.systemdActivation then
    if ¬env.fromfdOk then (some 1, ⟨false, true⟩) else (none, ⟨false, true⟩)
  else if ¬env.socketCreateOk then (some 1, ⟨true, true⟩)
  else if ¬env.bindOk then (some 1, ⟨true, true⟩)
  else if ¬env.listenOk then (some 1, ⟨true, true⟩)
  else (none, ⟨true, true⟩)

/-- C5: when the PID file opens but another process already holds the
non-blocking exclusive PID-file lock, the new daemon exits with status 1
(non-zero) having touched neither the socket path nor the shared command
tree. -/
theorem second_daemon_fails_fast (env : DaemonStartEnv)
    (hopen : env.pidOpenOk = true) (hlock : env.lockAvailable = false) :
    daemon_startup env = (some 1, ⟨false, false⟩) ∧ (1 : Int) ≠ 0 := by
  refine ⟨?_, by decide⟩
  simp [daemon_startup, hopen, hlock]

/-- Witness for C5 at a concrete environment where everything but the lock
is available. -/
theorem second_daemon_fails_fast_witness :
    daemon_startup ⟨true, false, true, false, true, true, true, true⟩ =
      (some 1, ⟨false, false⟩) ∧ (1 : Int) ≠ 0 :=
  second_daemon_fails_fast ⟨true, false, true, false, true, true, true, true⟩ rfl rfl

/-! ## Client main: event traces

`main` of targetcli_shell.py (lines 247-321) together with
`switch_to_daemon` (lines 193-245), modelled as the ordered trace of
observable events a run produces.  Every trace ends with an `exit` event
(uncaught exceptions terminate the process with status 1). -/

/-- Observable events of a client run: acquiring/releasing the blocking
client lock (`try_op_lock` / `release_op_lock`), any operation on the
daemon socket (socket create/connect/send/recv), any operation on the
local command tree (UIRoot construction, refresh, command execution,
saveconfig), printing, and process exit with a status. -/
inductive CEvent
  | acquireLock
  | releaseLock
  | socketOp
  | treeOp
  | printOut
  | exit (code : Int)
deriving DecidableEq, Repr

/-- Is this the exit event? -/
def CEvent.isExit : CEvent → Bool
  | CEvent.exit _ => true
  | _ => false

/-- The events a run performs before its first exit event. -/
def eventsBeforeExit (tr : List CEvent) : List CEvent :=
  tr.takeWhile (fun e => !e.isExit)

/-- `usage_version` flag sets (targetcli_shell.py lines 83-88). -/
def isHelpFlag (a : List Char) : Bool :=
  a = ('h' :: 'e' :: 'l' :: 'p' :: []) ∨
  a = ('-' :: '-' :: 'h' :: 'e' :: 'l' :: 'p' :: []) ∨
  a = ('-' :: 'h' :: [])

/-- Version flags (line 87). -/
def isVersionFlag (a : List Char) : Bool :=
  a = ('v' :: 'e' :: 'r' :: 's' :: 'i' :: 'o' :: 'n' :: []) ∨
  a = ('-' :: '-' :: 'v' :: 'e' :: 'r' :: 's' :: 'i' :: 'o' :: 'n' :: []) ∨
  a = ('-' :: 'v' :: [])

/-- The daemon-disabling flags (line 274). -/
def isDisableDaemonFlag (a : List Char) : Bool :=
  a = ('d' :: 'i' :: 's' :: 'a' :: 'b' :: 'l' :: 'e' :: '-' :: 'd' :: 'a' :: 'e' :: 'm' :: 'o' :: 'n' :: []) ∨
  a = ('-' :: '-' :: 'd' :: 'i' :: 's' :: 'a' :: 'b' :: 'l' :: 'e' :: '-' :: 'd' :: 'a' :: 'e' :: 'm' :: 'o' :: 'n' :: [])

/-- Environment of one client invocation: the CLI arguments after the
program name, whether opening and locking the client lock file succeed,
the persisted preferences (`auto_use_daemon`, `daemon_use_batch_mode`),
whether connecting to the daemon socket succeeds, whether building the
local tree succeeds, whether the one local command raises, and the lines
the user types. -/
structure ClientEnv where
  argv : List (List Char)
  lockOpenOk : Bool
  lockAcquireOk : Bool
  autoUseDaemon : Bool
  batchModePref : Bool
  daemonReachable : Bool
  treeRefreshOk : Bool
  localCmdOk : Bool
  inputLines : List (List Char)

/-- One `call_daemon` exchange as a trace fragment plus a success flag:
socket create + connect + send + framed receive collapse to one socket
event; a connection failure prints the remediation hint and fails (the
caller then exits 1 inside `call_daemon` itself, lines 131-140). -/
def call_daemon_trace (reachable : Bool) : List CEvent × Bool :=
  if reachable then ([CEvent.socketOp], true) else ([CEvent.socketOp, CEvent.printOut], false)

/-- The interactive daemon loop of `switch_to_daemon` (lines 221-245) as a
trace: each non-empty, non-exit line triggers one `call_daemon`; an exit
line breaks out and the process exits 0; exhausting the input raises
`EOFError` out of `input()` and the process dies with status 1.  An
unreachable daemon makes the first `call_daemon` exit 1. -/
def daemon_interactive_lines (reachable : Bool) : List (List Char) → List CEvent
  | [] => [CEvent.exit 1]
  | line :: rest =>
    if isExitLine line then [CEvent.exit 0]
    else if line = [] then daemon_interactive_lines reachable rest
    else
      match call_daemon_trace reachable with
      | (evs, true) => evs ++ daemon_interactive_lines reachable rest
      | (evs, false) => evs ++ [CEvent.exit 1]

/-- An interactive daemonized session (lines 207-245): the banner, the
initial pwd-fetching `call_daemon` (line 219), then the line loop. -/
def daemon_interactive_trace (env : ClientEnv) : List CEvent :=
  CEvent.printOut ::
    (match call_daemon_trace env.daemonReachable with
     | (evs, true) => evs ++ daemon_interactive_lines env.daemonReachable env.inputLines
     | (evs, false) => evs ++ [CEvent.exit 1])

/-- A batch daemonized session (lines 211-245): the banner, local
collection of lines (no daemon traffic), then — when an exit line arrived —
one `call_daemon` carrying the '%'-joined batch and exit 0; exhausted input
dies with status 1 (`EOFError`). -/
def daemon_batch_trace (env : ClientEnv) : List CEvent :=
  CEvent.printOut ::
    (match batch_loop env.inputLines [] with
     | none => [CEvent.exit 1]
     | some _ =>
       match call_daemon_trace env.daemonReachable with
       | (evs, true) => evs ++ [CEvent.exit 0]
       | (evs, false) => evs ++ [CEvent.exit 1])

/-- `switch_to_daemon` (lines 193-245): with CLI arguments, one one-shot
`call_daemon` then exit 0; otherwise an interactive or batch session
depending on the `daemon_use_batch_mode` preference.  Every path ends in
`sys.exit`. -/
def switch_to_daemon_trace (env : ClientEnv) (interactive : Bool) : List CEvent :=
  if env.argv ≠ [] then
    match call_daemon_trace env.daemonReachable with
    | (evs, true) => evs ++ [CEvent.exit 0]
    | (evs, false) => evs ++ [CEvent.exit 1]
  else if interactive then daemon_interactive_trace env
  else daemon_batch_trace env

/-- The local (non-daemon) tail of `main` (lines 285-321): build and
refresh the tree (exit -1 on failure, after printing); with CLI arguments
run the single command (or the `--disable-daemon` preference write) and
exit 0, or print the exception and exit 1; with no arguments run the
interactive shell (banner, session against the tree, optional
saveconfig), then `release_op_lock` and return (process exit 0). -/
def local_trace (env : ClientEnv) : List CEvent :=
  CEvent.treeOp ::
    (if ¬env.treeRefreshOk then [CEvent.printOut, CEvent.exit (-1)]
     else if env.argv ≠ [] then
       if env.localCmdOk then [CEvent.treeOp, CEvent.exit 0]
       else [CEvent.treeOp, CEvent.printOut, CEvent.exit 1]
     else
       [CEvent.printOut, CEvent.treeOp, CEvent.releaseLock, CEvent.exit 0])

/-- The post-lock dispatch of `main` (lines 267-321): read the daemon
preference, check `sys.argv[1]` for help/version flags (print and exit
before any socket or tree activity) and for the disable-daemon flag, then
hand off to `switch_to_daemon` when the daemon is enabled and not disabled
for this invocation, and to local execution otherwise. -/
def client_dispatch (env : ClientEnv) : List CEvent :=
  match env.argv with
  | a :: _ =>
    if isHelpFlag a then [CEvent.printOut, CEvent.exit (-1)]
    else if isVersionFlag a then [CEvent.printOut, CEvent.exit 0]
    else
      if env.autoUseDaemon && !isDisableDaemonFlag a then
        switch_to_daemon_trace env (!env.batchModePref)
      else local_trace env
  | [] =>
    if env.autoUseDaemon then switch_to_daemon_trace env (!env.batchModePref)
    else local_trace env

/-- `main` of targetcli_shell.py (lines 247-321) as an event trace: open
the lock file (print + exit 1 on failure), acquire the blocking client
lock (print + exit 1 on failure), then dispatch as above. -/
def client_main (env : ClientEnv) : List CEvent :=
  if !env.lockOpenOk then [CEvent.printOut, CEvent.exit 1]
  else if !env.lockAcquireOk then [CEvent.printOut, CEvent.exit 1]
  else CEvent.acquireLock :: client_dispatch env

example :
    client_main ⟨[['-', '-', 'h', 'e', 'l', 'p']], true, true, true, false, true, true, true, []⟩ =
      [CEvent.acquireLock, CEvent.printOut, CEvent.exit (-1)] := by decide
example :
    client_main ⟨[['l', 's']], true, true, true, false, true, true, true, []⟩ =
      [CEvent.acquireLock, CEvent.socketOp, CEvent.exit 0] := by decide
example :
    client_main ⟨[], true, true, false, false, true, true, true, []⟩ =
      [CEvent.acquireLock, CEvent.treeOp, CEvent.printOut, CEvent.treeOp,
        CEvent.releaseLock, CEvent.exit 0] := by decide

/-- No step of the interactive daemon loop ever releases the client lock. -/
theorem releaseLock_not_mem_interactive_lines (r : Bool) (lines : List (List Char)) :
    CEvent.releaseLock ∉ daemon_interactive_lines r lines := by
  induction lines with
  | nil => simp [daemon_interactive_lines]
  | cons line rest ih =>
    simp only [daemon_interactive_lines]
    by_cases hex : isExitLine line = true
    · simp [hex]
    · rw [if_neg hex]
      by_cases hemp : line = []
      · simpa [hemp] using ih
      · rw [if_neg hemp]
        cases r with
        | false => simp [call_daemon_trace]
        | true =>
          simp only [call_daemon_trace, if_pos]
          simpa using ih

/-- No path of `switch_to_daemon` ever releases the client lock: every
daemonized path exits the process with the lock still held. -/
theorem releaseLock_not_mem_switch (env : ClientEnv) (i : Bool) :
    CEvent.releaseLock ∉ switch_to_daemon_trace env i := by
  unfold switch_to_daemon_trace
  by_cases h : env.argv ≠ []
  · rw [if_pos h]
    cases env.daemonReachable <;> simp [call_daemon_trace]
  · rw [if_neg h]
    cases i with
    | true =>
      simp only [if_pos]
      unfold daemon_interactive_trace
      cases hdr : env.daemonReachable with
      | false => simp [call_daemon_trace]
      | true =>
        simp only [call_daemon_trace, if_pos]
        have := releaseLock_not_mem_interactive_lines true env.inputLines
        simp only [List.mem_cons, List.mem_append]
        rintro (h' | h' | h')
        · exact absurd h' (by decide)
        · exact absurd h' (by simp)
        · exact this h'
    | false =>
      simp only [Bool.false_eq_true, if_false]
      unfold daemon_batch_trace
      cases batch_loop env.inputLines [] with
      | none => simp
      | some l => cases env.daemonReachable <;> simp [call_daemon_trace]

/-- C6: the claim as stated is false on the code.  For the invocation
`targetcli --help` (with the lock file available), the client's trace is
acquire-lock, print, exit: `main` opens the lock file and takes the
blocking client lock at lines 258-265, before `usage_version` examines
`sys.argv[1]` at line 273, so lock activity does precede the exit. -/
theorem help_flag_locks_first :
    isHelpFlag ('-' :: '-' :: 'h' :: 'e' :: 'l' :: 'p' :: []) = true ∧
    CEvent.acquireLock ∈ eventsBeforeExit (client_main
      ⟨[('-' :: '-' :: 'h' :: 'e' :: 'l' :: 'p' :: [])],
        true, true, true, false, true, true, true, []⟩) := by decide

/-- C6 (amended): for every client invocation whose first argument is a
help or version flag (and whose lock file opens and locks successfully),
the process prints the requested information and exits immediately — the
trace contains no daemon-socket operation and no command-tree operation —
but the short-circuit happens only after the client lock file has been
opened and the blocking client lock acquired, which precede the flag
check. -/
theorem help_version_short_circuit (env : ClientEnv) (a : List Char)
    (rest : List (List Char)) (hargv : env.argv = a :: rest)
    (hopen : env.lockOpenOk = true) (hacq : env.lockAcquireOk = true) :
    (isHelpFlag a = true →
      client_main env = [CEvent.acquireLock, CEvent.printOut, CEvent.exit (-1)]) ∧
    (isVersionFlag a = true →
      client_main env = [CEvent.acquireLock, CEvent.printOut, CEvent.exit 0]) ∧
    ((isHelpFlag a = true ∨ isVersionFlag a = true) →
      CEvent.socketOp ∉ client_main env ∧ CEvent.treeOp ∉ client_main env) := by
  have hver_not_help : isVersionFlag a = true → isHelpFlag a = false := by
    intro hv
    simp only [isVersionFlag, decide_eq_true_eq] at hv
    rcases hv with h | h | h <;> subst h <;> decide
  have hhelp : isHelpFlag a = true →
      client_main env = [CEvent.acquireLock, CEvent.printOut, CEvent.exit (-1)] := by
    intro hf
    simp [client_main, client_dispatch, hopen, hacq, hargv, hf]
  have hver : isVersionFlag a = true →
      client_main env = [CEvent.acquireLock, CEvent.printOut, CEvent.exit 0] := by
    intro hv
    simp [client_main, client_dispatch, hopen, hacq, hargv, hver_not_help hv, hv]
  refine ⟨hhelp, hver, ?_⟩
  rintro (hf | hv)
  · rw [hhelp hf]; exact ⟨by decide, by decide⟩
  · rw [hver hv]; exact ⟨by decide, by decide⟩

/-- Witness for the amended C6 at the invocation `targetcli --help`. -/
theorem help_version_short_circuit_witness :
    (isHelpFlag ('-' :: '-' :: 'h' :: 'e' :: 'l' :: 'p' :: []) = true →
      client_main ⟨[('-' :: '-' :: 'h' :: 'e' :: 'l' :: 'p' :: [])],
          true, true, true, false, true, true, true, []⟩ =
        [CEvent.acquireLock, CEvent.printOut, CEvent.exit (-1)]) ∧
    (isVersionFlag ('-' :: '-' :: 'h' :: 'e' :: 'l' :: 'p' :: []) = true →
      client_main ⟨[('-' :: '-' :: 'h' :: 'e' :: 'l' :: 'p' :: [])],
          true, true, true, false, true, true, true, []⟩ =
        [CEvent.acquireLock, CEvent.printOut, CEvent.exit 0]) ∧
    ((isHelpFlag ('-' :: '-' :: 'h' :: 'e' :: 'l' :: 'p' :: []) = true ∨
      isVersionFlag ('-' :: '-' :: 'h' :: 'e' :: 'l' :: 'p' :: []) = true) →
      CEvent.socketOp ∉ client_main ⟨[('-' :: '-' :: 'h' :: 'e' :: 'l' :: 'p' :: [])],
          true, true, true, false, true, true, true, []⟩ ∧
      CEvent.treeOp ∉ client_main ⟨[('-' :: '-' :: 'h' :: 'e' :: 'l' :: 'p' :: [])],
          true, true, true, false, true, true, true, []⟩) :=
  help_version_short_circuit
    ⟨[('-' :: '-' :: 'h' :: 'e' :: 'l' :: 'p' :: [])], true, true, true, false, true, true, true, []⟩
    ('-' :: '-' :: 'h' :: 'e' :: 'l' :: 'p' :: []) [] rfl rfl rfl

/-- C8: the claim as stated is false on the code.  A one-shot daemonized
invocation (`targetcli ls` with `auto_use_daemon` on) acquires the blocking
client lock and then exits inside `switch_to_daemon` without ever invoking
the explicit unlock-and-close release. -/
theorem lock_release_missing_on_daemon_path :
    CEvent.acquireLock ∈ client_main
      ⟨[['l', 's']], true, true, true, false, true, true, true, []⟩ ∧
    CEvent.releaseLock ∉ client_main
      ⟨[['l', 's']], true, true, true, false, true, true, true, []⟩ := by decide

/-- C8 (amended): the explicit unlock-and-close release (`release_op_lock`)
is invoked on exactly one terminating path — the local-mode interactive
session (lock acquired, no CLI arguments, daemon mode off, tree
initialization successful).  Every other path that acquired the blocking
client lock — one-shot, batch and interactive daemon mode, local one-shot,
help/version and error paths — exits without invoking it, the lock being
dropped only implicitly when the process exits. -/
theorem release_only_on_local_interactive_path (env : ClientEnv) :
    CEvent.releaseLock ∈ client_main env ↔
      (env.lockOpenOk = true ∧ env.lockAcquireOk = true ∧ env.argv = [] ∧
       env.autoUseDaemon = false ∧ env.treeRefreshOk = true) := by
  have hdisp : ∀ env' : ClientEnv, CEvent.releaseLock ∈ client_dispatch env' ↔
      (env'.argv = [] ∧ env'.autoUseDaemon = false ∧ env'.treeRefreshOk = true) := by
    intro env'
    obtain ⟨argv, lo, la, aud, bmp, dr, tro, lco, il⟩ := env'
    cases argv with
    | nil =>
      cases aud with
      | true =>
        have hsw := releaseLock_not_mem_switch ⟨[], lo, la, true, bmp, dr, tro, lco, il⟩ (!bmp)
        simpa [client_dispatch] using hsw
      | false =>
        cases tro with
        | true => simp [client_dispatch, local_trace]
        | false => simp [client_dispatch, local_trace]
    | cons a rest =>
      constructor
      · intro h
        exfalso
        simp only [client_dispatch] at h
        by_cases hf : isHelpFlag a = true
        · rw [if_pos hf] at h; simp at h
        · rw [if_neg hf] at h
          by_cases hv : isVersionFlag a = true
          · rw [if_pos hv] at h; simp at h
          · rw [if_neg hv] at h
            by_cases hd : (aud && !isDisableDaemonFlag a) = true
            · rw [if_pos hd] at h
              exact releaseLock_not_mem_switch
                ⟨a :: rest, lo, la, aud, bmp, dr, tro, lco, il⟩ (!bmp) h
            · rw [if_neg hd] at h
              cases tro with
              | false => simp [local_trace] at h
              | true => cases lco <;> simp [local_trace] at h
      · rintro ⟨habs, _, _⟩; cases habs
  obtain ⟨argv, lo, la, aud, bmp, dr, tro, lco, il⟩ := env
  cases lo with
  | false => simp [client_main]
  | true =>
    cases la with
    | false => simp [client_main]
    | true =>
      simp only [client_main, Bool.not_true, Bool.false_eq_true, if_neg, if_false,
        Bool.not_false, ite_false, ite_true, List.mem_cons]
      have h := hdisp ⟨argv, true, true, aud, bmp, dr, tro, lco, il⟩
      constructor
      · rintro (habs | hm)
        · exact absurd habs (by decide)
        · have := h.mp hm
          exact ⟨trivial, trivial, this.1, this.2.1, this.2.2⟩
      · rintro ⟨_, _, h1, h2, h3⟩
        exact Or.inr (h.mpr ⟨h1, h2, h3⟩)

example : utf8Encode [0xE9] = [0xC3, 0xA9] := by decide
example : utf8Decode [0xC3, 0xA9] = some [0xE9] := by decide
example : utf8Decode [0xC3] = none := by decide
example : unpack_i (pack_i 1) = 1 := by decide
example : decode_response (encode_header [0xE9]) [[0xC3, 0xA9]] = some [0xE9] := by decide
example : decode_response (encode_header [0xE9]) [[0xC3], [0xA9]] = none := by decide
example : decode_response (encode_header []) [] = some [] := by decide

end Targetcli
